import Mathlib

/-!
Shallow embedding of `src/contracts/auctions/AuctionManager.py` and of the
Order JSON (de)serialization layer of the pymaker exchange client (whose
implementation module is absent from this snapshot; only `src/tests/pymaker/test_zrx.py`
and the specification describe it — those parts are modelled from the spec).

Contract/node interaction (web3, the deployed contract, transaction receipts)
is modelled as an explicit environment of oracles (`Web3Env`); effectful
methods additionally return a trace of the contract transactions they issued
or the handler invocations they performed, so that "submits a transaction" /
"invokes the handler" become provable statements.
-/

namespace Pymaker

/-- Embeds `contracts.Address`: an account/contract address (hex string). -/
structure Address where
  address : String
deriving DecidableEq

/-- Embeds `contracts.Wad`: an 18-decimal fixed-point number carried as an
arbitrary-precision integer `value`. -/
structure Wad where
  value : Int
deriving DecidableEq

/-- Embeds `contracts.ERC20Token` as far as the auction classes use it:
a token bound to an address (`ERC20Token(web3=..., address=...)`). -/
structure ERC20Token where
  address : Address
deriving DecidableEq

/-- A transaction receipt as used by `_claim` (line 110) and `Auctionlet.bid`
(line 179): only its `logs` entry matters. `logs = none` models both a `None`
value and a missing `'logs'` key (the latter raises and is caught by the same
`except`); `logs = some l` models a list of log entries (their content is
never inspected, only their number). -/
structure Receipt where
  logs : Option (List Unit)

/-- A `LogNewAuction` event log entry: `log['transactionHash']` and
`log['args']['base_id']`. -/
structure LogNewAuction where
  transactionHash : Int
  base_id : Int

/-- A `LogBid` event log entry. -/
structure LogBid where
  transactionHash : Int
  auctionlet_id : Int

/-- A `LogSplit` event log entry. -/
structure LogSplit where
  transactionHash : Int
  base_id : Int
  new_id : Int
  split_id : Int

/-- A `LogAuctionReversal` event log entry. -/
structure LogAuctionReversal where
  transactionHash : Int
  auction_id : Int

/-- A `bid` contract transaction as issued by `Auctionlet.bid`: the
two-argument form (line 171) or the three-argument splitting form
(lines 169 and 176). -/
inductive BidCall where
  | bid2 (auctionlet_id : Int) (how_much : Int)
  | bid3 (auctionlet_id : Int) (how_much : Int) (quantity : Int)
deriving DecidableEq

/-- An invocation of one of the four registered event handlers
(lines 42-58). -/
inductive HandlerCall where
  | newAuction (base_id : Int)
  | bid (auctionlet_id : Int)
  | split (base_id new_id split_id : Int)
  | auctionReversal (auction_id : Int)
deriving DecidableEq

/-- The tuple returned by the contract call `getAuctionInfo` (line 83),
fields in tuple order `auction_info[0] .. auction_info[9]`. -/
structure AuctionInfo where
  creator : String
  selling : String
  buying : String
  start_bid : Int
  min_increase : Int
  min_decrease : Int
  sell_amount : Int
  ttl : Int
  reversed : Bool
  unsold : Bool
deriving DecidableEq

/-- The tuple returned by the contract call `getAuctionletInfo` (line 92),
fields in tuple order `auctionlet_info[0] .. auctionlet_info[6]`. -/
structure AuctionletInfo where
  auction_id : Int
  last_bidder : String
  last_bid_time : Int
  buy_amount : Int
  sell_amount : Int
  unclaimed : Bool
  base : Bool
deriving DecidableEq

/-- The environment standing for `web3` and the deployed contract: each field
is one oracle the client calls. `Except Unit` results model calls that may
raise (a revert or transport error caught by the Python `except:` blocks);
`getAuctionInfo` appears total because `AuctionManager.get_auction` (line 83)
has no exception handling, so only its successful outcome is observable
through the embedded methods. -/
structure Web3Env where
  blockNumber : Int
  getAuctionInfo : Int → AuctionInfo
  getAuctionletInfo : Int → Except Unit AuctionletInfo
  isExpired : Int → Except Unit Bool
  transactBid : BidCall → Except Unit Int
  transactClaim : Int → Except Unit Int
  waitForReceipt : Int → Except Unit Receipt
  pastEventsNewAuction : Int → List LogNewAuction
  pastEventsSplit : Int → List LogSplit

/-- Embeds the state of an `AuctionManager` object (`__init__`, lines 24-35):
its address, the splitting flag, the set `_our_tx_hashes` (a Python `set` of
transaction hashes, embedded as a list queried by membership) and the four
handler slots (`some ()` = a handler is registered, `none` = the slot still
holds `None`). -/
structure AuctionManager where
  address : Address
  is_splitting : Bool
  _our_tx_hashes : List Int
  _on_new_auction_handler : Option Unit
  _on_bid_handler : Option Unit
  _on_split_handler : Option Unit
  _on_auction_reversal_handler : Option Unit
deriving DecidableEq

/-- Embeds `AuctionManager.__init__` (lines 24-35): fresh state with an empty
`_our_tx_hashes` set and no handler registered. -/
def AuctionManager.init (address : Address) (is_splitting : Bool) : AuctionManager :=
  { address := address
    is_splitting := is_splitting
    _our_tx_hashes := []
    _on_new_auction_handler := none
    _on_bid_handler := none
    _on_split_handler := none
    _on_auction_reversal_handler := none }

/-- Embeds `AuctionManager.on_new_auction` (lines 60-61): registers a handler. -/
def AuctionManager.on_new_auction (m : AuctionManager) (_handler : Unit) : AuctionManager :=
  { m with _on_new_auction_handler := some () }

/-- Embeds `AuctionManager.on_bid` (lines 63-64): registers a handler. -/
def AuctionManager.on_bid (m : AuctionManager) (_handler : Unit) : AuctionManager :=
  { m with _on_bid_handler := some () }

/-- Embeds `AuctionManager.on_split` (lines 66-67): registers a handler. -/
def AuctionManager.on_split (m : AuctionManager) (_handler : Unit) : AuctionManager :=
  { m with _on_split_handler := some () }

/-- Embeds `AuctionManager.on_auction_reversal` (lines 69-70). -/
def AuctionManager.on_auction_reversal (m : AuctionManager) (_handler : Unit) : AuctionManager :=
  { m with _on_auction_reversal_handler := some () }

/-- Embeds `AuctionManager._on_new_auction` (lines 42-45); the returned list
is the trace of handler invocations (`[]` = the handler was not invoked). -/
def AuctionManager._on_new_auction (m : AuctionManager) (log : LogNewAuction) : List HandlerCall :=
  if ¬ m._our_tx_hashes.contains log.transactionHash then
    if m._on_new_auction_handler.isSome then [HandlerCall.newAuction log.base_id] else []
  else []

/-- Embeds `AuctionManager._on_bid` (lines 47-50). -/
def AuctionManager._on_bid (m : AuctionManager) (log : LogBid) : List HandlerCall :=
  if ¬ m._our_tx_hashes.contains log.transactionHash then
    if m._on_bid_handler.isSome then [HandlerCall.bid log.auctionlet_id] else []
  else []

/-- Embeds `AuctionManager._on_split` (lines 52-54): note that, unlike
`_on_new_auction` and `_on_bid`, it never consults `_our_tx_hashes`. -/
def AuctionManager._on_split (m : AuctionManager) (log : LogSplit) : List HandlerCall :=
  if m._on_split_handler.isSome then
    [HandlerCall.split log.base_id log.new_id log.split_id]
  else []

/-- Embeds `AuctionManager._on_auction_reversal` (lines 56-58): also not
filtered by `_our_tx_hashes`. -/
def AuctionManager._on_auction_reversal (m : AuctionManager) (log : LogAuctionReversal) : List HandlerCall :=
  if m._on_auction_reversal_handler.isSome then
    [HandlerCall.auctionReversal log.auction_id]
  else []

/-- Embeds `pastEvents(event, filter, handler)` as used on lines 76-79:
the node replays every historical log matching the filter and the handler
runs once per log; the returned list is the trace of handler results in
delivery order. -/
def pastEvents (logs : List α) (handler : α → β) : List β :=
  logs.map handler

/-- Embeds `AuctionManager.discover_recent_auctionlets` (lines 72-79): replays
`LogNewAuction` then `LogSplit` history from
`web3.eth.blockNumber - number_of_historical_blocks`, invoking
`on_auctionlet_discovered` with `base_id` resp. `split_id` of each log; the
returned list is the trace of callback invocations. -/
def AuctionManager.discover_recent_auctionlets (env : Web3Env) (_m : AuctionManager)
    (number_of_historical_blocks : Int) (on_auctionlet_discovered : Int → β) : List β :=
  let start_block_number := env.blockNumber - number_of_historical_blocks
  pastEvents (env.pastEventsNewAuction start_block_number)
      (fun log => on_auctionlet_discovered log.base_id) ++
    pastEvents (env.pastEventsSplit start_block_number)
      (fun log => on_auctionlet_discovered log.split_id)

/-- Embeds the class `Auction` (`__init__`, lines 117-129). -/
structure Auction where
  _auction_manager : AuctionManager
  auction_id : Int
  creator : Address
  selling : ERC20Token
  buying : ERC20Token
  start_bid : Wad
  min_increase : Int
  min_decrease : Int
  sell_amount : Wad
  ttl : Int
  reversed : Bool
  unsold : Bool
deriving DecidableEq

/-- Embeds `Auction.__init__` (lines 117-129): unpacking of the
`getAuctionInfo` tuple into the object's fields. -/
def Auction.ofInfo (auction_manager : AuctionManager) (auction_id : Int)
    (auction_info : AuctionInfo) : Auction :=
  { _auction_manager := auction_manager
    auction_id := auction_id
    creator := Address.mk auction_info.creator
    selling := ERC20Token.mk (Address.mk auction_info.selling)
    buying := ERC20Token.mk (Address.mk auction_info.buying)
    start_bid := Wad.mk auction_info.start_bid
    min_increase := auction_info.min_increase
    min_decrease := auction_info.min_decrease
    sell_amount := Wad.mk auction_info.sell_amount
    ttl := auction_info.ttl
    reversed := auction_info.reversed
    unsold := auction_info.unsold }

/-- Embeds `Auction.__eq__` (lines 131-132). -/
def Auction.__eq__ (a other : Auction) : Bool :=
  a.auction_id == other.auction_id

/-- Embeds `AuctionManager.get_auction` (lines 81-83): builds an `Auction`
from the `getAuctionInfo` contract call (no exception handling here). -/
def AuctionManager.get_auction (env : Web3Env) (m : AuctionManager) (auction_id : Int) : Auction :=
  Auction.ofInfo m auction_id (env.getAuctionInfo auction_id)

/-- Embeds the class `Auctionlet` (`__init__`, lines 139-149). `_auction` is
the lazily-filled parent-auction cache (line 141); `last_bid_time` keeps the
raw Unix timestamp which `datetime.datetime.fromtimestamp` merely re-wraps. -/
structure Auctionlet where
  _auction_manager : AuctionManager
  _auction : Option Auction
  auctionlet_id : Int
  auction_id : Int
  last_bidder : Address
  last_bid_time : Int
  buy_amount : Wad
  sell_amount : Wad
  unclaimed : Bool
  base : Bool
deriving DecidableEq

/-- Embeds `Auctionlet.__init__` (lines 139-149): unpacking of the
`getAuctionletInfo` tuple into a fresh object (`_auction = None`). -/
def Auctionlet.ofInfo (auction_manager : AuctionManager) (auctionlet_id : Int)
    (auctionlet_info : AuctionletInfo) : Auctionlet :=
  { _auction_manager := auction_manager
    _auction := none
    auctionlet_id := auctionlet_id
    auction_id := auctionlet_info.auction_id
    last_bidder := Address.mk auctionlet_info.last_bidder
    last_bid_time := auctionlet_info.last_bid_time
    buy_amount := Wad.mk auctionlet_info.buy_amount
    sell_amount := Wad.mk auctionlet_info.sell_amount
    unclaimed := auctionlet_info.unclaimed
    base := auctionlet_info.base }

/-- Embeds `Auctionlet.__eq__` (lines 187-188). -/
def Auctionlet.__eq__ (a other : Auctionlet) : Bool :=
  a.auctionlet_id == other.auctionlet_id

/-- Embeds `AuctionManager.get_auctionlet` (lines 85-94): a reverting
`getAuctionletInfo` call is caught by the bare `except:` and mapped to
`None`. -/
def AuctionManager.get_auctionlet (env : Web3Env) (m : AuctionManager)
    (auctionlet_id : Int) : Option Auctionlet :=
  match env.getAuctionletInfo auctionlet_id with
  | Except.ok auctionlet_info => some (Auctionlet.ofInfo m auctionlet_id auctionlet_info)
  | Except.error _ => none

/-- Embeds `AuctionManager._is_auctionlet_expired` (lines 96-102): the result
of `isExpired`, with a reverting call mapped to `None`. -/
def AuctionManager._is_auctionlet_expired (env : Web3Env) (_m : AuctionManager)
    (auctionlet_id : Int) : Option Bool :=
  match env.isExpired auctionlet_id with
  | Except.ok b => some b
  | Except.error _ => none

/-- Embeds `AuctionManager._claim` (lines 104-113): submit `claim`, wait for
the receipt, report success exactly when the receipt's `logs` is a non-empty
list; any raise along the way yields `False`. -/
def AuctionManager._claim (env : Web3Env) (_m : AuctionManager) (auctionlet_id : Int) : Bool :=
  match env.transactClaim auctionlet_id with
  | Except.error _ => false
  | Except.ok tx_hash =>
    match env.waitForReceipt tx_hash with
    | Except.error _ => false
    | Except.ok receipt =>
      match receipt.logs with
      | none => false
      | some receipt_logs => decide (receipt_logs.length > 0)

/-- Embeds `Auctionlet.is_expired` (lines 152-153). -/
def Auctionlet.is_expired (env : Web3Env) (a : Auctionlet) : Option Bool :=
  AuctionManager._is_auctionlet_expired env a._auction_manager a.auctionlet_id

/-- Embeds `Auctionlet.get_auction` (lines 155-158). The embedding threads
the mutable `_auction` cache explicitly: the result is the returned `Auction`,
the object's state after the call, and the number of `getAuctionInfo`
contract calls the method performed. -/
def Auctionlet.get_auction (env : Web3Env) (a : Auctionlet) : Auction × Auctionlet × Nat :=
  match a._auction with
  | none =>
    let fetched := AuctionManager.get_auction env a._auction_manager a.auction_id
    (fetched, { a with _auction := some fetched }, 1)
  | some cached => (cached, a, 0)

/-- Embeds `Auctionlet.can_split` (lines 160-161). -/
def Auctionlet.can_split (a : Auctionlet) : Bool :=
  a._auction_manager.is_splitting

/-- The shared tail of `Auctionlet.bid` (lines 177-182) once a `bid`
transaction is issued: wait for the receipt and report success exactly when
its `logs` is a non-empty list; the second component records the one `bid`
contract transaction the method issued. Any raise yields `False`. Note that
line 177, which would have recorded the transaction hash in the manager's
`_our_tx_hashes` set, is commented out in the source, so no state of the
manager is touched. -/
def submitBidAndWait (env : Web3Env) (c : BidCall) : Bool × List BidCall :=
  match env.transactBid c with
  | Except.error _ => (false, [c])
  | Except.ok tx_hash =>
    match env.waitForReceipt tx_hash with
    | Except.error _ => (false, [c])
    | Except.ok receipt =>
      match receipt.logs with
      | none => (false, [c])
      | some receipt_logs => (decide (receipt_logs.length > 0), [c])

/-- Embeds `Auctionlet.bid` (lines 163-182). The second component is the
trace of `bid` contract transactions the call issued (`[]` = none). -/
def Auctionlet.bid (env : Web3Env) (a : Auctionlet) (how_much : Wad)
    (quantity : Option Wad := none) : Bool × List BidCall :=
  match quantity with
  | none =>
    if a._auction_manager.is_splitting then
      submitBidAndWait env (BidCall.bid3 a.auctionlet_id how_much.value a.sell_amount.value)
    else
      submitBidAndWait env (BidCall.bid2 a.auctionlet_id how_much.value)
  | some q =>
    if ¬ a._auction_manager.is_splitting then
      (false, [])
    else
      submitBidAndWait env (BidCall.bid3 a.auctionlet_id how_much.value q.value)

/-- Embeds `Auctionlet.claim` (lines 184-185). -/
def Auctionlet.claim (env : Web3Env) (a : Auctionlet) : Bool :=
  AuctionManager._claim env a._auction_manager a.auctionlet_id

/-! Concrete instances used by the evaluation witnesses below. -/

/-- A concrete environment: every transaction gets hash 42 (claims get 43),
its receipt carries one log entry, and read calls for auctionlets revert. -/
def envW : Web3Env :=
  { blockNumber := 100
    getAuctionInfo := fun _ => ⟨"0xc", "0xs", "0xb", 1, 2, 3, 100, 7, false, false⟩
    getAuctionletInfo := fun _ => Except.error ()
    isExpired := fun _ => Except.error ()
    transactBid := fun _ => Except.ok 42
    transactClaim := fun _ => Except.ok 43
    waitForReceipt := fun _ => Except.ok ⟨some [()]⟩
    pastEventsNewAuction := fun _ => []
    pastEventsSplit := fun _ => [] }

/-- `envW` with a succeeding `getAuctionletInfo` call. -/
def envOk : Web3Env :=
  { envW with getAuctionletInfo := fun _ => Except.ok ⟨2, "0x0", 0, 10, 100, true, true⟩ }

/-- `envW` with a different `getAuctionInfo` answer (to exhibit caching). -/
def envW2 : Web3Env :=
  { envW with getAuctionInfo := fun _ => ⟨"0xd", "0xs", "0xb", 9, 9, 9, 9, 9, true, true⟩ }

/-- A freshly constructed non-splitting manager. -/
def mgrNonSplit : AuctionManager := AuctionManager.init (Address.mk "0xa") false

/-- A freshly constructed splitting manager. -/
def mgrSplit : AuctionManager := AuctionManager.init (Address.mk "0xa") true

/-- A concrete auctionlet (id 1, sell amount 100) bound to `mgrNonSplit`. -/
def aNonSplit : Auctionlet :=
  { _auction_manager := mgrNonSplit
    _auction := none
    auctionlet_id := 1
    auction_id := 2
    last_bidder := Address.mk "0x0"
    last_bid_time := 0
    buy_amount := Wad.mk 10
    sell_amount := Wad.mk 100
    unclaimed := true
    base := true }

/-- The same auctionlet bound to `mgrSplit`. -/
def aSplit : Auctionlet := { aNonSplit with _auction_manager := mgrSplit }

/-! Theorems. -/

/-- Claim C1: for every auctionlet bound to a non-splitting auction manager
and every non-`None` quantity argument, `Auctionlet.bid(how_much, quantity)`
returns failure (`False`) immediately without issuing any `bid` contract
transaction. -/
theorem bid_partial_quantity_non_splitting_rejected (env : Web3Env) (a : Auctionlet)
    (how_much q : Wad) (h : a._auction_manager.is_splitting = false) :
    Auctionlet.bid env a how_much (some q) = (false, []) := by
  simp [Auctionlet.bid, h]

/-- Evaluation witness for claim C1 at a concrete non-splitting auctionlet. -/
theorem bid_partial_quantity_non_splitting_rejected_witness :
    aNonSplit._auction_manager.is_splitting = false ∧
    Auctionlet.bid envW aNonSplit (Wad.mk 5) (some (Wad.mk 2)) = (false, []) :=
  ⟨rfl, bid_partial_quantity_non_splitting_rejected envW aNonSplit (Wad.mk 5) (Wad.mk 2) rfl⟩

/-- The bid-submission tail always records exactly the one transaction it was
asked to issue. -/
theorem submitBidAndWait_trace (env : Web3Env) (c : BidCall) :
    (submitBidAndWait env c).2 = [c] := by
  unfold submitBidAndWait
  split
  · rfl
  · split
    · rfl
    · split <;> rfl

/-- Claim C4: with no quantity, a splitting manager gets a three-argument bid
over the auctionlet's full current sell amount and a non-splitting manager a
two-argument full bid; with a quantity and a splitting manager, a
three-argument bid with that quantity is submitted. -/
theorem bid_submits_expected_transaction (env : Web3Env) (a : Auctionlet) (how_much : Wad) :
    (a._auction_manager.is_splitting = true →
      (Auctionlet.bid env a how_much none).2 =
        [BidCall.bid3 a.auctionlet_id how_much.value a.sell_amount.value]) ∧
    (a._auction_manager.is_splitting = false →
      (Auctionlet.bid env a how_much none).2 =
        [BidCall.bid2 a.auctionlet_id how_much.value]) ∧
    (∀ q : Wad, a._auction_manager.is_splitting = true →
      (Auctionlet.bid env a how_much (some q)).2 =
        [BidCall.bid3 a.auctionlet_id how_much.value q.value]) := by
  refine ⟨fun h => ?_, fun h => ?_, fun q h => ?_⟩ <;>
    simp [Auctionlet.bid, h, submitBidAndWait_trace]

/-- Evaluation witness for claim C4: the three bid shapes at concrete
auctionlets. -/
theorem bid_submits_expected_transaction_witness :
    (Auctionlet.bid envW aSplit (Wad.mk 7) none).2 = [BidCall.bid3 1 7 100] ∧
    (Auctionlet.bid envW aNonSplit (Wad.mk 7) none).2 = [BidCall.bid2 1 7] ∧
    (Auctionlet.bid envW aSplit (Wad.mk 7) (some (Wad.mk 30))).2 = [BidCall.bid3 1 7 30] :=
  ⟨(bid_submits_expected_transaction envW aSplit (Wad.mk 7)).1 rfl,
   (bid_submits_expected_transaction envW aNonSplit (Wad.mk 7)).2.1 rfl,
   (bid_submits_expected_transaction envW aSplit (Wad.mk 7)).2.2 (Wad.mk 30) rfl⟩

/-- Claim C3: `get_auctionlet` maps a reverting `getAuctionletInfo` call to
`None` and a succeeding one to an `Auctionlet` built from the returned tuple;
`is_expired` maps a reverting `isExpired` call to `None`. -/
theorem get_auctionlet_and_is_expired_on_revert (env : Web3Env) (m : AuctionManager)
    (auctionlet_id : Int) :
    (env.getAuctionletInfo auctionlet_id = Except.error () →
      AuctionManager.get_auctionlet env m auctionlet_id = none) ∧
    (∀ info, env.getAuctionletInfo auctionlet_id = Except.ok info →
      AuctionManager.get_auctionlet env m auctionlet_id =
        some (Auctionlet.ofInfo m auctionlet_id info)) ∧
    (∀ a : Auctionlet, env.isExpired a.auctionlet_id = Except.error () →
      Auctionlet.is_expired env a = none) := by
  refine ⟨fun h => ?_, fun info h => ?_, fun a h => ?_⟩ <;>
    simp [AuctionManager.get_auctionlet, Auctionlet.is_expired,
      AuctionManager._is_auctionlet_expired, h]

/-- Evaluation witness for claim C3: a reverting and a succeeding lookup, and
a reverting expiry check. -/
theorem get_auctionlet_and_is_expired_on_revert_witness :
    AuctionManager.get_auctionlet envW mgrNonSplit 1 = none ∧
    AuctionManager.get_auctionlet envOk mgrNonSplit 1 =
      some (Auctionlet.ofInfo mgrNonSplit 1 ⟨2, "0x0", 0, 10, 100, true, true⟩) ∧
    Auctionlet.is_expired envW aNonSplit = none :=
  ⟨(get_auctionlet_and_is_expired_on_revert envW mgrNonSplit 1).1 rfl,
   (get_auctionlet_and_is_expired_on_revert envOk mgrNonSplit 1).2.1 _ rfl,
   (get_auctionlet_and_is_expired_on_revert envW mgrNonSplit 1).2.2 aNonSplit rfl⟩

/-- Claim C5: `claim` returns `True` exactly when the claim transaction goes
through and its receipt carries a non-empty list of logs; every failure mode
(submission raise, waiting raise, absent or empty log list) yields `False`. -/
theorem claim_true_iff_receipt_has_logs (env : Web3Env) (a : Auctionlet) :
    Auctionlet.claim env a = true ↔
      ∃ tx_hash receipt receipt_logs,
        env.transactClaim a.auctionlet_id = Except.ok tx_hash ∧
        env.waitForReceipt tx_hash = Except.ok receipt ∧
        receipt.logs = some receipt_logs ∧ receipt_logs ≠ [] := by
  unfold Auctionlet.claim AuctionManager._claim
  cases h1 : env.transactClaim a.auctionlet_id with
  | error e => simp [h1]
  | ok tx_hash =>
    cases h2 : env.waitForReceipt tx_hash with
    | error e => simp [h1, h2]
    | ok receipt =>
      cases h3 : receipt.logs with
      | none => simp [h1, h2, h3]
      | some receipt_logs => simp [h1, h2, h3, List.length_pos]

/-- Counting callback invocations over a mapped log list. -/
theorem count_map_eq_length_filter (f : α → Int) (l : List α) (x : Int) :
    (l.map f).count x = (l.filter (fun a => f a == x)).length := by
  induction l with
  | nil => rfl
  | cons hd tl ih =>
    by_cases h : f hd = x <;>
      simp [List.count_cons, List.filter_cons, h, ih]

/-- Claim C8: `discover_recent_auctionlets` replays the historical
`LogNewAuction` and `LogSplit` entries from block
`blockNumber - lookbackBlocks` onward and invokes the callback exactly once
per discovered base (`base_id`) or split (`split_id`) auctionlet identifier. -/
theorem discover_recent_auctionlets_invocations (env : Web3Env) (m : AuctionManager)
    (number_of_historical_blocks : Int) (x : Int) :
    (AuctionManager.discover_recent_auctionlets env m number_of_historical_blocks
        (fun i => i)).count x =
      ((env.pastEventsNewAuction (env.blockNumber - number_of_historical_blocks)).filter
        (fun log => log.base_id == x)).length +
      ((env.pastEventsSplit (env.blockNumber - number_of_historical_blocks)).filter
        (fun log => log.split_id == x)).length := by
  unfold AuctionManager.discover_recent_auctionlets pastEvents
  rw [List.count_append, count_map_eq_length_filter, count_map_eq_length_filter]

/-- Claim C9: on an auctionlet whose parent-auction cache is empty,
`get_auction` performs exactly one `getAuctionInfo` contract call, returns the
auction the manager builds from it, stores it in the cache, and any later call
on the resulting object — under any environment, i.e. without another
contract call — returns the same cached auction and leaves the object
unchanged. -/
theorem get_auction_fetches_once_then_caches (env env2 : Web3Env) (a : Auctionlet)
    (h : a._auction = none) :
    (Auctionlet.get_auction env a).2.2 = 1 ∧
    (Auctionlet.get_auction env a).1 =
      AuctionManager.get_auction env a._auction_manager a.auction_id ∧
    (Auctionlet.get_auction env a).2.1._auction = some ((Auctionlet.get_auction env a).1) ∧
    Auctionlet.get_auction env2 (Auctionlet.get_auction env a).2.1 =
      ((Auctionlet.get_auction env a).1, (Auctionlet.get_auction env a).2.1, 0) := by
  simp [Auctionlet.get_auction, h]

/-- Evaluation witness for claim C9: the second lookup happens under an
environment whose `getAuctionInfo` answers differently, yet the cached auction
is returned with no further contract call. -/
theorem get_auction_fetches_once_then_caches_witness :
    (Auctionlet.get_auction envW aNonSplit).2.2 = 1 ∧
    (Auctionlet.get_auction envW aNonSplit).1 =
      AuctionManager.get_auction envW aNonSplit._auction_manager aNonSplit.auction_id ∧
    (Auctionlet.get_auction envW aNonSplit).2.1._auction =
      some ((Auctionlet.get_auction envW aNonSplit).1) ∧
    Auctionlet.get_auction envW2 (Auctionlet.get_auction envW aNonSplit).2.1 =
      ((Auctionlet.get_auction envW aNonSplit).1, (Auctionlet.get_auction envW aNonSplit).2.1, 0) :=
  get_auction_fetches_once_then_caches envW envW2 aNonSplit rfl

/-- Claim C10: `Auction.__eq__` and `Auctionlet.__eq__` compare only the
identifier, so two snapshots agree under `__eq__` exactly when their
identifiers agree, whatever their other fields hold. -/
theorem equality_compares_only_identifier :
    (∀ a other : Auction, Auction.__eq__ a other = true ↔ a.auction_id = other.auction_id) ∧
    (∀ a other : Auctionlet,
      Auctionlet.__eq__ a other = true ↔ a.auctionlet_id = other.auctionlet_id) := by
  refine ⟨fun a other => ?_, fun a other => ?_⟩ <;>
    simp [Auction.__eq__, Auctionlet.__eq__]

/-- A freshly constructed non-splitting manager with a bid handler
registered, as a keeper would set it up. -/
def mgrBidScenario : AuctionManager := (AuctionManager.init (Address.mk "0xa") false).on_bid ()

/-- The concrete auctionlet `aNonSplit` bound to `mgrBidScenario`. -/
def aBidScenario : Auctionlet := { aNonSplit with _auction_manager := mgrBidScenario }

/-- Claim C2, evaluated at the failing input: the client bids through
`aBidScenario` and the node assigns the transaction hash 42 (`envW`); since
the line that would have recorded the hash in `_our_tx_hashes` is commented
out in the source (line 177) and nothing else ever adds to that set, the
manager's set is still empty, and when the `LogBid` entry for that very
transaction arrives, `_on_bid` invokes the registered handler instead of
suppressing it. -/
theorem own_bid_transaction_still_invokes_handler :
    Auctionlet.bid envW aBidScenario (Wad.mk 5) none = (true, [BidCall.bid2 1 5]) ∧
    mgrBidScenario._our_tx_hashes = [] ∧
    AuctionManager._on_bid mgrBidScenario ⟨42, 1⟩ = [HandlerCall.bid 1] :=
  ⟨rfl, rfl, rfl⟩

/-!
The Order JSON layer. The implementing module (`pymaker.zrx.Order`) is not
part of this snapshot — only its tests are — so the definitions below are
modelled from the specification: all integer and fixed-point wire values are
base-10 integer strings, addresses and signature components are `0x`-hex
strings, and the wire keys are the fixed set of section 6 of the spec.
-/

/-- Modelled from the spec: the decimal digits of `n`, least significant
first (always nonempty), backing the base-10 integer-string wire encoding. -/
def decDigitsRev (n : Nat) : List Nat :=
  if h : n < 10 then [n]
  else n % 10 :: decDigitsRev (n / 10)
termination_by n
decreasing_by exact Nat.div_lt_self (by omega) (by omega)

/-- The number a least-significant-first digit list denotes. -/
def valOfDigitsRev : List Nat → Nat
  | [] => 0
  | d :: ds => d + 10 * valOfDigitsRev ds

theorem valOfDigitsRev_decDigitsRev (n : Nat) :
    valOfDigitsRev (decDigitsRev n) = n := by
  induction n using Nat.strong_induction_on with
  | _ n ih =>
    rw [decDigitsRev]
    split
    · simp [valOfDigitsRev]
    · rename_i h
      simp only [valOfDigitsRev]
      rw [ih (n / 10) (Nat.div_lt_self (by omega) (by omega))]
      omega

theorem decDigitsRev_lt (n : Nat) : ∀ d ∈ decDigitsRev n, d < 10 := by
  induction n using Nat.strong_induction_on with
  | _ n ih =>
    rw [decDigitsRev]
    split
    · rename_i h
      intro d hd
      simp only [List.mem_singleton] at hd
      omega
    · rename_i h
      intro d hd
      rcases List.mem_cons.mp hd with rfl | hd
      · exact Nat.mod_lt _ (by omega)
      · exact ih (n / 10) (Nat.div_lt_self (by omega) (by omega)) d hd

theorem decDigitsRev_ne_nil (n : Nat) : decDigitsRev n ≠ [] := by
  rw [decDigitsRev]
  split <;> simp

theorem toNat_digitChar {d : Nat} (h : d < 10) :
    (Char.ofNat (48 + d)).toNat = 48 + d := by
  interval_cases d <;> decide

/-- Modelled from the spec: decimal rendering of a natural number as the
character list of its base-10 digits. -/
def natToDecChars (n : Nat) : List Char :=
  (decDigitsRev n).reverse.map (fun d => Char.ofNat (48 + d))

theorem natToDecChars_ne_nil (n : Nat) : natToDecChars n ≠ [] := by
  unfold natToDecChars
  simp [decDigitsRev_ne_nil n]

theorem natToDecChars_digits (n : Nat) :
    ∀ c ∈ natToDecChars n, 48 ≤ c.toNat ∧ c.toNat ≤ 57 := by
  intro c hc
  unfold natToDecChars at hc
  rcases List.mem_map.mp hc with ⟨d, hd, rfl⟩
  have hd10 : d < 10 := decDigitsRev_lt n d (List.mem_reverse.mp hd)
  rw [toNat_digitChar hd10]
  omega

/-- Modelled from the spec: parsing a decimal digit string back to a natural
number (`None` on the empty string or any non-digit character). -/
def decNatOfChars? (cs : List Char) : Option Nat :=
  if cs.isEmpty then none
  else if cs.all (fun c => 48 ≤ c.toNat && c.toNat ≤ 57) then
    some (valOfDigitsRev (cs.reverse.map (fun c => c.toNat - 48)))
  else none

theorem decNatOfChars?_natToDecChars (n : Nat) :
    decNatOfChars? (natToDecChars n) = some n := by
  unfold decNatOfChars?
  rw [if_neg (by simp [List.isEmpty_iff, natToDecChars_ne_nil n]), if_pos]
  · congr 1
    unfold natToDecChars
    rw [List.map_reverse, List.map_map]
    have hcongr : ∀ d ∈ (decDigitsRev n).reverse,
        ((fun c => c.toNat - 48) ∘ (fun d => Char.ofNat (48 + d))) d = id d := by
      intro d hd
      simp [Function.comp, toNat_digitChar (decDigitsRev_lt n d (List.mem_reverse.mp hd))]
    rw [List.map_congr_left hcongr, List.map_id, List.reverse_reverse]
    exact valOfDigitsRev_decDigitsRev n
  · rw [List.all_eq_true]
    intro c hc
    have := natToDecChars_digits n c hc
    simp only [Bool.and_eq_true, decide_eq_true_eq]
    omega

/-- Modelled from the spec: decimal rendering of an integer (leading `-` for
negative values), the wire encoding of every amount, fee, timestamp and salt. -/
def intToDecChars (i : Int) : List Char :=
  if i < 0 then '-' :: natToDecChars i.natAbs else natToDecChars i.natAbs

/-- Modelled from the spec: parsing a decimal integer string (a leading `-`
marks a negative value). -/
def decIntOfChars? (cs : List Char) : Option Int :=
  if cs.head? = some '-' then (decNatOfChars? cs.tail).map (fun n : Nat => -(n : Int))
  else (decNatOfChars? cs).map (fun n : Nat => (n : Int))

theorem decIntOfChars?_intToDecChars (i : Int) :
    decIntOfChars? (intToDecChars i) = some i := by
  unfold intToDecChars
  split
  · rename_i hneg
    unfold decIntOfChars?
    have hh : ('-' :: natToDecChars i.natAbs).head? = some '-' := rfl
    rw [if_pos hh, List.tail_cons, decNatOfChars?_natToDecChars]
    simp only [Option.map_some', Option.some.injEq]
    omega
  · rename_i hpos
    unfold decIntOfChars?
    obtain ⟨c, rest, hc⟩ := List.exists_cons_of_ne_nil (natToDecChars_ne_nil i.natAbs)
    have hdig : 48 ≤ c.toNat :=
      (natToDecChars_digits i.natAbs c (hc ▸ List.mem_cons_self c rest)).1
    have hcm : ¬ ((natToDecChars i.natAbs).head? = some '-') := by
      rw [hc]
      simp only [List.head?_cons, Option.some.injEq]
      intro h
      have h45 : ('-').toNat = 45 := rfl
      rw [h, h45] at hdig
      omega
    rw [if_neg hcm, decNatOfChars?_natToDecChars]
    simp only [Option.map_some', Option.some.injEq]
    omega

/-- Modelled from the spec: the base-10 integer-string wire encoding. -/
def intToDec (i : Int) : String := String.mk (intToDecChars i)

/-- Modelled from the spec: parsing a base-10 integer string (as Python
`int(...)` does on the wire values). -/
def decToInt? (s : String) : Option Int := decIntOfChars? s.data

theorem decToInt?_intToDec (i : Int) : decToInt? (intToDec i) = some i :=
  decIntOfChars?_intToDecChars i

/-- A JSON value, as far as the order wire format uses them; objects are
association lists of distinct keys (the shape of a Python dict). -/
inductive JsonVal where
  | str (s : String)
  | num (n : Int)
  | null
  | obj (fields : List (String × JsonVal))

/-- Modelled from the spec: the `Order` value object (spec section 3) whose
implementation module is absent from this snapshot. The bound exchange client
reference is excluded: equality ignores it and `from_json` receives it as a
separate argument. A missing signature is all three of `ec_signature_r`,
`ec_signature_s`, `ec_signature_v` being `None` together. -/
structure Order where
  maker : Address
  taker : Address
  maker_fee : Wad
  taker_fee : Wad
  maker_token_amount : Wad
  taker_token_amount : Wad
  maker_token_address : Address
  taker_token_address : Address
  salt : Int
  fee_recipient : Address
  expiration : Int
  exchange_contract_address : Address
  ec_signature_r : Option String
  ec_signature_s : Option String
  ec_signature_v : Option Int
deriving DecidableEq

/-- Key lookup in a JSON object (first binding wins, as in a Python dict
built from distinct keys). -/
def jsonGet (j : List (String × JsonVal)) (k : String) : Option JsonVal :=
  (j.find? (fun p => p.1 == k)).map (fun p => p.2)

/-- A required string-valued key. -/
def jsonGetStr (j : List (String × JsonVal)) (k : String) : Option String :=
  match jsonGet j k with
  | some (JsonVal.str s) => some s
  | _ => none

/-- A required decimal-integer-string-valued key, parsed as Python `int`. -/
def jsonGetDec (j : List (String × JsonVal)) (k : String) : Option Int :=
  match jsonGet j k with
  | some (JsonVal.str s) => decToInt? s
  | _ => none

/-- Modelled from the spec: an optional hex-string signature component
serializes as itself or as JSON `null`, keeping the key set fixed. -/
def sigVal : Option String → JsonVal
  | some s => JsonVal.str s
  | none => JsonVal.null

/-- Modelled from the spec: the numeric `v` component or JSON `null`. -/
def sigValNum : Option Int → JsonVal
  | some v => JsonVal.num v
  | none => JsonVal.null

/-- Modelled from the spec (sections 4.1 and 6): `Order.to_json` serializes
to the fixed key set of the wire format, all integer and fixed-point fields
as base-10 integer strings, with the `ecSignature` block always present. -/
def Order.to_json (o : Order) : List (String × JsonVal) :=
  [("exchangeContractAddress", JsonVal.str o.exchange_contract_address.address),
   ("maker", JsonVal.str o.maker.address),
   ("taker", JsonVal.str o.taker.address),
   ("makerTokenAddress", JsonVal.str o.maker_token_address.address),
   ("takerTokenAddress", JsonVal.str o.taker_token_address.address),
   ("feeRecipient", JsonVal.str o.fee_recipient.address),
   ("makerTokenAmount", JsonVal.str (intToDec o.maker_token_amount.value)),
   ("takerTokenAmount", JsonVal.str (intToDec o.taker_token_amount.value)),
   ("makerFee", JsonVal.str (intToDec o.maker_fee.value)),
   ("takerFee", JsonVal.str (intToDec o.taker_fee.value)),
   ("expirationUnixTimestampSec", JsonVal.str (intToDec o.expiration)),
   ("salt", JsonVal.str (intToDec o.salt)),
   ("ecSignature", JsonVal.obj
      [("r", sigVal o.ec_signature_r),
       ("s", sigVal o.ec_signature_s),
       ("v", sigValNum o.ec_signature_v)])]

/-- Modelled from the spec (sections 4.1 and 6): the fee-omitting variant
drops `feeRecipient`, `makerFee`, `takerFee` and the signature block
entirely. -/
def Order.to_json_without_fees (o : Order) : List (String × JsonVal) :=
  [("exchangeContractAddress", JsonVal.str o.exchange_contract_address.address),
   ("maker", JsonVal.str o.maker.address),
   ("taker", JsonVal.str o.taker.address),
   ("makerTokenAddress", JsonVal.str o.maker_token_address.address),
   ("takerTokenAddress", JsonVal.str o.taker_token_address.address),
   ("makerTokenAmount", JsonVal.str (intToDec o.maker_token_amount.value)),
   ("takerTokenAmount", JsonVal.str (intToDec o.taker_token_amount.value)),
   ("expirationUnixTimestampSec", JsonVal.str (intToDec o.expiration)),
   ("salt", JsonVal.str (intToDec o.salt))]

/-- Modelled from the spec (sections 4.1 and 7): the optional signature block
of `from_json`. An absent `ecSignature` key, or an all-`null` block, yields
the signature-less triple (all three components `None` together); a
partially-present signature is a required-field validation error, never a
partial default. -/
def parseSignature (j : List (String × JsonVal)) :
    Option (Option String × Option String × Option Int) :=
  match jsonGet j "ecSignature" with
  | none => some (none, none, none)
  | some JsonVal.null => some (none, none, none)
  | some (JsonVal.obj sig) =>
    match jsonGet sig "r", jsonGet sig "s", jsonGet sig "v" with
    | some (JsonVal.str r), some (JsonVal.str s), some (JsonVal.num v) =>
      some (some r, some s, some v)
    | some JsonVal.null, some JsonVal.null, some JsonVal.null => some (none, none, none)
    | _, _, _ => none
  | some _ => none

/-- Modelled from the spec (section 4.1): `Order.from_json` parses the wire
format; every data field is required, the signature is optional (the exchange
reference argument is not part of the value object, see `Order`). -/
def Order.from_json (j : List (String × JsonVal)) : Option Order := do
  let exchange_contract_address ← jsonGetStr j "exchangeContractAddress"
  let maker ← jsonGetStr j "maker"
  let taker ← jsonGetStr j "taker"
  let maker_token_address ← jsonGetStr j "makerTokenAddress"
  let taker_token_address ← jsonGetStr j "takerTokenAddress"
  let fee_recipient ← jsonGetStr j "feeRecipient"
  let maker_token_amount ← jsonGetDec j "makerTokenAmount"
  let taker_token_amount ← jsonGetDec j "takerTokenAmount"
  let maker_fee ← jsonGetDec j "makerFee"
  let taker_fee ← jsonGetDec j "takerFee"
  let expiration ← jsonGetDec j "expirationUnixTimestampSec"
  let salt ← jsonGetDec j "salt"
  let sig ← parseSignature j
  pure { maker := Address.mk maker
         taker := Address.mk taker
         maker_fee := Wad.mk maker_fee
         taker_fee := Wad.mk taker_fee
         maker_token_amount := Wad.mk maker_token_amount
         taker_token_amount := Wad.mk taker_token_amount
         maker_token_address := Address.mk maker_token_address
         taker_token_address := Address.mk taker_token_address
         salt := salt
         fee_recipient := Address.mk fee_recipient
         expiration := expiration
         exchange_contract_address := Address.mk exchange_contract_address
         ec_signature_r := sig.1
         ec_signature_s := sig.2.1
         ec_signature_v := sig.2.2 }

/-- Claim C6: parsing the serialization of any order recovers it in every
data field — in particular when fees are zero and when the signature is
absent, in which case the parsed order's r, s and v are all absent together. -/
theorem from_json_to_json_roundtrip (o : Order)
    (h : (∃ r s v, o.ec_signature_r = some r ∧ o.ec_signature_s = some s ∧
            o.ec_signature_v = some v) ∨
         (o.ec_signature_r = none ∧ o.ec_signature_s = none ∧ o.ec_signature_v = none)) :
    Order.from_json (Order.to_json o) = some o := by
  obtain ⟨maker, taker, mf, tf, mta, tta, mtaddr, ttaddr, slt, fr, exp, eca, sr, ss, sv⟩ := o
  obtain ⟨r, s, v, hr, hs, hv⟩ | ⟨hr, hs, hv⟩ := h <;> subst hr <;> subst hs <;> subst hv <;>
    simp [Order.from_json, Order.to_json, jsonGetStr, jsonGetDec, jsonGet, parseSignature,
      List.find?, sigVal, sigValNum, decToInt?_intToDec]

/-- A concrete unsigned order with zero fees. -/
def orderUnsigned : Order :=
  { maker := Address.mk "0x9e56625509c2f60af937f23b7b532600390e8c8b"
    taker := Address.mk "0x0000000000000000000000000000000000000000"
    maker_fee := Wad.mk 0
    taker_fee := Wad.mk 0
    maker_token_amount := Wad.mk 10000000000000000
    taker_token_amount := Wad.mk 20000000000000000
    maker_token_address := Address.mk "0x323b5d4c32345ced77393b3530b1eed0f346429d"
    taker_token_address := Address.mk "0xef7fff64389b814a946f3e92105513705ca6b990"
    salt := 67006738228878699843088602623665307406148487219438534730168799356281242528500
    fee_recipient := Address.mk "0x6666666666666666666666666666666666666666"
    expiration := 42
    exchange_contract_address := Address.mk "0x12459c951127e0c374ff9105dda097662a027093"
    ec_signature_r := none
    ec_signature_s := none
    ec_signature_v := none }

/-- Evaluation witness for claim C6 at a concrete unsigned zero-fee order. -/
theorem from_json_to_json_roundtrip_witness :
    (orderUnsigned.ec_signature_r = none ∧ orderUnsigned.ec_signature_s = none ∧
      orderUnsigned.ec_signature_v = none) ∧
    Order.from_json (Order.to_json orderUnsigned) = some orderUnsigned :=
  ⟨⟨rfl, rfl, rfl⟩, from_json_to_json_roundtrip orderUnsigned (Or.inr ⟨rfl, rfl, rfl⟩)⟩

/-- Claim C7: for every order, whatever its fee, fee-recipient and signature
fields hold, `to_json_without_fees` contains none of the keys `makerFee`,
`takerFee`, `feeRecipient`, `ecSignature`, while `to_json` contains all of
them. -/
theorem to_json_without_fees_omits_fee_keys (o : Order) :
    ("makerFee" ∉ (Order.to_json_without_fees o).map Prod.fst ∧
     "takerFee" ∉ (Order.to_json_without_fees o).map Prod.fst ∧
     "feeRecipient" ∉ (Order.to_json_without_fees o).map Prod.fst ∧
     "ecSignature" ∉ (Order.to_json_without_fees o).map Prod.fst) ∧
    ("makerFee" ∈ (Order.to_json o).map Prod.fst ∧
     "takerFee" ∈ (Order.to_json o).map Prod.fst ∧
     "feeRecipient" ∈ (Order.to_json o).map Prod.fst ∧
     "ecSignature" ∈ (Order.to_json o).map Prod.fst) := by
  simp [Order.to_json, Order.to_json_without_fees]

end Pymaker
